import Mathlib

/-!
# Verification of the Bot-Trading signal-computation core

A shallow embedding of the trading bot's signal core:

* `src/strategies/supertrend.py`     — `SupertrendStrategy`
* `src/strategies/golden_cross.py`   — `GoldenCrossStrategy`
* `src/strategies/bollinger_bands.py`— `BollingerBandsStrategy`
* `src/strategies/funding_rate.py`   — `FundingRateStrategy`
* `src/core/trading_bot.py`          — `TradingBot`

Pandas/NumPy floating-point cells are modelled by `FVal`: either `nan` or an
exact rational.  All comparison operators on `FVal` return `false` whenever a
`nan` is involved, exactly as IEEE-754 comparisons (and hence pandas `<`, `>`,
`<=`, `>=`) do.  Arithmetic propagates `nan`.  Python exceptions are modelled
with `Except String`.
-/

/-- A pandas cell: not-a-number, or an exact rational value.  (The repository
only ever produces NaN through missing history, never infinities.) -/
inductive FVal where
  | nan : FVal
  | val : ℚ → FVal
deriving DecidableEq, Repr

instance : Inhabited FVal := ⟨FVal.nan⟩

/-- Is this cell NaN? -/
def FVal.isNan : FVal → Bool
  | .nan => true
  | .val _ => false

/-- Float addition: NaN-propagating. -/
def fadd : FVal → FVal → FVal
  | .val a, .val b => .val (a + b)
  | _, _ => .nan

/-- Float subtraction: NaN-propagating. -/
def fsub : FVal → FVal → FVal
  | .val a, .val b => .val (a - b)
  | _, _ => .nan

/-- Float multiplication: NaN-propagating.  (The repository never multiplies
NaN by zero, so the IEEE rule `0 * NaN = NaN` agrees.) -/
def fmul : FVal → FVal → FVal
  | .val a, .val b => .val (a * b)
  | _, _ => .nan

/-- Float absolute value: NaN-propagating. -/
def fabs : FVal → FVal
  | .val a => .val |a|
  | .nan => .nan

/-- IEEE `<`: false when either side is NaN. -/
def flt : FVal → FVal → Bool
  | .val a, .val b => decide (a < b)
  | _, _ => false

/-- IEEE `>`: false when either side is NaN. -/
def fgt : FVal → FVal → Bool
  | .val a, .val b => decide (b < a)
  | _, _ => false

/-- IEEE `<=`: false when either side is NaN. -/
def fle : FVal → FVal → Bool
  | .val a, .val b => decide (a ≤ b)
  | _, _ => false

/-- IEEE `>=`: false when either side is NaN. -/
def fge : FVal → FVal → Bool
  | .val a, .val b => decide (b ≤ a)
  | _, _ => false

/-- Row-wise maximum of three cells with pandas `max(axis=1)` semantics
(`skipna=True`): NaN entries are ignored; all-NaN gives NaN. -/
def rowMax3 (a b c : FVal) : FVal :=
  let step : FVal → FVal → FVal := fun acc x =>
    match acc, x with
    | .nan, x => x
    | acc, .nan => acc
    | .val p, .val q => .val (max p q)
  step (step a b) c

/-- Sum the values of a window, `none` if any cell is NaN (pandas rolling
aggregation with the default `min_periods` treats a NaN inside the window as
poisoning the result). -/
def fvalSum? : List FVal → Option ℚ
  | [] => some 0
  | .nan :: _ => none
  | .val q :: rest => (fvalSum? rest).map (fun s => q + s)

/-- `Series.rolling(w).mean()`: cell `i` is the mean of cells `i-w+1 .. i`,
NaN while fewer than `w` observations exist.  (pandas rejects `w = 0` with a
`ValueError`; the repository only ever calls this with positive windows, and
we return the all-NaN column for `w = 0`.) -/
def rollingMean (w : ℕ) (xs : List FVal) : List FVal :=
  (List.range xs.length).map fun i =>
    if w = 0 ∨ i + 1 < w then FVal.nan
    else
      match fvalSum? ((xs.drop (i + 1 - w)).take w) with
      | none => FVal.nan
      | some s => FVal.val (s / w)

/-- Executable approximation of the floating-point square root on exact
rationals (Python/NumPy compute a binary-float square root here).  None of
the settled claims depends on the numeric value of a square root, only on
whether the cell is NaN, so any total rational-valued approximation is
adequate; negative inputs give NaN exactly as `np.sqrt` does. -/
def fsqrt : FVal → FVal
  | .nan => .nan
  | .val q =>
      if q < 0 then .nan
      else .val ((Nat.sqrt q.num.toNat : ℚ) / (Nat.sqrt q.den : ℚ))

/-- `Series.rolling(w).std()` (sample standard deviation, `ddof = 1`):
NaN while fewer than `w` observations exist and for `w = 1` (zero degrees of
freedom); otherwise the square root of
`Σ (x_j - mean)² / (w - 1)` over the window. -/
def rollingStd (w : ℕ) (xs : List FVal) : List FVal :=
  (List.range xs.length).map fun i =>
    if w ≤ 1 ∨ i + 1 < w then FVal.nan
    else
      let window := (xs.drop (i + 1 - w)).take w
      match fvalSum? window with
      | none => FVal.nan
      | some s =>
          let m : ℚ := s / w
          let sq := window.map fun x =>
            match x with
            | .val q => FVal.val ((q - m) * (q - m))
            | .nan => FVal.nan
          match fvalSum? sq with
          | none => FVal.nan
          | some ss => fsqrt (.val (ss / (w - 1 : ℕ)))

/-- An OHLCV candle (one row of the DataFrame built by
`TradingBot.fetch_data`).  The source column `open` is a Lean keyword and is
named `op` here; `timestamp` is kept as the raw millisecond integer (the
`pd.to_datetime` conversion is an injective re-labelling the strategies never
inspect). -/
structure Bar where
  timestamp : ℤ
  op : ℚ
  high : ℚ
  low : ℚ
  close : ℚ
  volume : ℚ
deriving DecidableEq, Repr

instance : Inhabited Bar := ⟨⟨0, 0, 0, 0, 0, 0⟩⟩

/-- `SupertrendStrategy.tr`: the per-bar True Range column.  Bar 0 has NaN
`previous_close`, so its `high-pc` / `low-pc` terms are NaN and the skipna
row-max falls back to `|high - low|`. -/
def supertrend_tr (bars : List Bar) : List FVal :=
  (List.range bars.length).map fun i =>
    let b := bars.getD i default
    let pc : FVal := if i = 0 then .nan else .val (bars.getD (i - 1) default).close
    rowMax3 (.val |b.high - b.low|)
      (fabs (fsub (.val b.high) pc))
      (fabs (fsub (.val b.low) pc))

/-- `SupertrendStrategy.atr`: trailing simple mean of True Range. -/
def supertrend_atr (period : ℕ) (bars : List Bar) : List FVal :=
  rollingMean period (supertrend_tr bars)

/-- One row of the frame returned by `SupertrendStrategy.calculate`. -/
structure STRow where
  bar : Bar
  atr : FVal
  upperband : FVal
  lowerband : FVal
  in_uptrend : Bool
deriving DecidableEq, Repr

instance : Inhabited STRow := ⟨⟨default, .nan, .nan, .nan, true⟩⟩

/-- One iteration of the `for current in range(1, len(data))` loop of
`SupertrendStrategy.calculate`.  `prev` is the (already finalised) previous
row's `(upperband, lowerband, in_uptrend)`; `cur` is the current row's
`(close, raw upperband, raw lowerband)`. -/
def stStep (prev : FVal × FVal × Bool) (cur : ℚ × FVal × FVal) : FVal × FVal × Bool :=
  if fgt (.val cur.1) prev.1 then (cur.2.1, cur.2.2, true)
  else if flt (.val cur.1) prev.2.1 then (cur.2.1, cur.2.2, false)
  else
    let up := prev.2.2
    let l := if up && flt cur.2.2 prev.2.1 then prev.2.1 else cur.2.2
    let u := if !up && fgt cur.2.1 prev.1 then prev.1 else cur.2.1
    (u, l, up)

/-- The loop of `SupertrendStrategy.calculate` from bar 1 on, as a forward
scan carrying the previous finalised row. -/
def stRest (prev : FVal × FVal × Bool) : List (ℚ × FVal × FVal) → List (FVal × FVal × Bool)
  | [] => []
  | c :: cs =>
      let cur := stStep prev c
      cur :: stRest cur cs

/-- The per-bar `(close, raw upperband, raw lowerband)` columns computed
vectorised before the loop: `hl2 ± multiplier * atr`. -/
def stRaw (period : ℕ) (multiplier : ℚ) (bars : List Bar) : List (ℚ × FVal × FVal) :=
  let atrs := supertrend_atr period bars
  (List.range bars.length).map fun i =>
    let b := bars.getD i default
    let hl2 : ℚ := (b.high + b.low) / 2
    let a := atrs.getD i .nan
    (b.close, fadd (.val hl2) (fmul (.val multiplier) a),
      fsub (.val hl2) (fmul (.val multiplier) a))

/-- The finalised `(upperband, lowerband, in_uptrend)` states of every bar:
bar 0 keeps its raw bands with the flag initialised `True`, later bars follow
the loop. -/
def stStates (period : ℕ) (multiplier : ℚ) (bars : List Bar) : List (FVal × FVal × Bool) :=
  match stRaw period multiplier bars with
  | [] => []
  | r0 :: rest =>
      let s0 : FVal × FVal × Bool := (r0.2.1, r0.2.2, true)
      s0 :: stRest s0 rest

/-- `SupertrendStrategy.calculate`. -/
def supertrend_calculate (period : ℕ) (multiplier : ℚ) (bars : List Bar) : List STRow :=
  let atrs := supertrend_atr period bars
  let sts := stStates period multiplier bars
  (List.range bars.length).map fun i =>
    let s := sts.getD i default
    { bar := bars.getD i default, atr := atrs.getD i .nan,
      upperband := s.1, lowerband := s.2.1, in_uptrend := s.2.2 }

/-- `SupertrendStrategy.get_signal`: guards explicitly against frames with
fewer than two rows, then compares the last two trend flags. -/
def supertrend_get_signal (frame : List STRow) : String :=
  if frame.length < 2 then "hold"
  else
    let last := frame.getD (frame.length - 1) default
    let prev := frame.getD (frame.length - 2) default
    if !prev.in_uptrend && last.in_uptrend then "buy"
    else if prev.in_uptrend && !last.in_uptrend then "sell"
    else "hold"

example :
    supertrend_calculate 1 1 [⟨0, 10, 10, 10, 10, 0⟩, ⟨1, 20, 20, 0, 20, 0⟩] =
      [{ bar := ⟨0, 10, 10, 10, 10, 0⟩, atr := .val 0, upperband := .val 10,
         lowerband := .val 10, in_uptrend := true },
       { bar := ⟨1, 20, 20, 0, 20, 0⟩, atr := .val 20, upperband := .val 30,
         lowerband := .val (-10), in_uptrend := true }] := by with_unfolding_all decide

/-- One row of the frame returned by `GoldenCrossStrategy.calculate`:
the two moving-average columns `MA_{short_period}` / `MA_{long_period}` and
the two crossover flag columns. -/
structure GCRow where
  bar : Bar
  ma_short : FVal
  ma_long : FVal
  golden_cross : Bool
  death_cross : Bool
deriving DecidableEq, Repr

instance : Inhabited GCRow := ⟨⟨default, .nan, .nan, false, false⟩⟩

/-- `GoldenCrossStrategy.calculate`.  The flag columns are initialised all
`False`; the loop `for i in range(1, len(data))` sets the flag at bar `i ≥ 1`
from the four moving-average cells at bars `i-1` and `i` (pandas comparisons
involving NaN are `False`).  The `if len(data) >= 2` guard in the source only
skips a loop that would be empty anyway. -/
def goldenCross_calculate (short_period long_period : ℕ) (bars : List Bar) : List GCRow :=
  let closes := bars.map fun b => FVal.val b.close
  let mas := rollingMean short_period closes
  let mal := rollingMean long_period closes
  (List.range bars.length).map fun i =>
    let g : Bool :=
      if i = 0 then false
      else fle (mas.getD (i - 1) .nan) (mal.getD (i - 1) .nan) &&
           fgt (mas.getD i .nan) (mal.getD i .nan)
    let d : Bool :=
      if i = 0 then false
      else fge (mas.getD (i - 1) .nan) (mal.getD (i - 1) .nan) &&
           flt (mas.getD i .nan) (mal.getD i .nan)
    { bar := bars.getD i default, ma_short := mas.getD i .nan,
      ma_long := mal.getD i .nan, golden_cross := g, death_cross := d }

/-- `GoldenCrossStrategy.get_signal`: reads `iloc[-1]` with no length guard,
so an empty frame raises an `IndexError` (modelled as `Except.error`). -/
def goldenCross_get_signal (frame : List GCRow) : Except String String :=
  match frame.getLast? with
  | none => .error "IndexError"
  | some r =>
      .ok (if r.golden_cross then "buy" else if r.death_cross then "sell" else "hold")

/-- One row of the frame returned by `BollingerBandsStrategy.calculate`. -/
structure BBRow where
  bar : Bar
  bb_middle : FVal
  bb_std : FVal
  bb_upper : FVal
  bb_lower : FVal
  above_upper : Bool
  below_lower : Bool
  bb_buy_signal : Bool
  bb_sell_signal : Bool
deriving DecidableEq, Repr

instance : Inhabited BBRow := ⟨⟨default, .nan, .nan, .nan, .nan, false, false, false, false⟩⟩

/-- The `bb_middle` column of `BollingerBandsStrategy.calculate`. -/
def bb_middle_col (period : ℕ) (bars : List Bar) : List FVal :=
  rollingMean period (bars.map fun b => FVal.val b.close)

/-- The `bb_std` column of `BollingerBandsStrategy.calculate`. -/
def bb_std_col (period : ℕ) (bars : List Bar) : List FVal :=
  rollingStd period (bars.map fun b => FVal.val b.close)

/-- The `bb_upper` column: `bb_middle + bb_std * num_std`. -/
def bb_upper_col (period : ℕ) (num_std : ℚ) (bars : List Bar) : List FVal :=
  (List.range bars.length).map fun i =>
    fadd ((bb_middle_col period bars).getD i .nan)
      (fmul ((bb_std_col period bars).getD i .nan) (.val num_std))

/-- The `bb_lower` column: `bb_middle - bb_std * num_std`. -/
def bb_lower_col (period : ℕ) (num_std : ℚ) (bars : List Bar) : List FVal :=
  (List.range bars.length).map fun i =>
    fsub ((bb_middle_col period bars).getD i .nan)
      (fmul ((bb_std_col period bars).getD i .nan) (.val num_std))

/-- The `above_upper` column: `close > bb_upper` (false on NaN bands). -/
def bb_above_col (period : ℕ) (num_std : ℚ) (bars : List Bar) : List Bool :=
  (List.range bars.length).map fun i =>
    fgt (.val (bars.getD i default).close) ((bb_upper_col period num_std bars).getD i .nan)

/-- The `below_lower` column: `close < bb_lower` (false on NaN bands). -/
def bb_below_col (period : ℕ) (num_std : ℚ) (bars : List Bar) : List Bool :=
  (List.range bars.length).map fun i =>
    flt (.val (bars.getD i default).close) ((bb_lower_col period num_std bars).getD i .nan)

/-- `BollingerBandsStrategy.calculate`: the flag loop marks a buy at bar
`i ≥ 1` when the close re-enters the band from below
(`below_lower[i-1] ∧ ¬below_lower[i]`), a sell symmetrically from above. -/
def bollinger_calculate (period : ℕ) (num_std : ℚ) (bars : List Bar) : List BBRow :=
  (List.range bars.length).map fun i =>
    let buy : Bool :=
      if i = 0 then false
      else (bb_below_col period num_std bars).getD (i - 1) false &&
        !((bb_below_col period num_std bars).getD i false)
    let sell : Bool :=
      if i = 0 then false
      else (bb_above_col period num_std bars).getD (i - 1) false &&
        !((bb_above_col period num_std bars).getD i false)
    { bar := bars.getD i default,
      bb_middle := (bb_middle_col period bars).getD i .nan,
      bb_std := (bb_std_col period bars).getD i .nan,
      bb_upper := (bb_upper_col period num_std bars).getD i .nan,
      bb_lower := (bb_lower_col period num_std bars).getD i .nan,
      above_upper := (bb_above_col period num_std bars).getD i false,
      below_lower := (bb_below_col period num_std bars).getD i false,
      bb_buy_signal := buy, bb_sell_signal := sell }

/-- `BollingerBandsStrategy.get_signal`: reads `iloc[-1]` with no length
guard, so an empty frame raises an `IndexError`. -/
def bollinger_get_signal (frame : List BBRow) : Except String String :=
  match frame.getLast? with
  | none => .error "IndexError"
  | some r =>
      .ok (if r.bb_buy_signal then "buy" else if r.bb_sell_signal then "sell" else "hold")

/-- One row of the frame returned by `FundingRateStrategy.calculate`. -/
structure FRRow where
  bar : Bar
  funding_rate : FVal
  fr_buy_signal : Bool
  fr_sell_signal : Bool
deriving DecidableEq, Repr

instance : Inhabited FRRow := ⟨⟨default, .nan, false, false⟩⟩

/-- `FundingRateStrategy.calculate`.  The source draws a fresh vector
`np.random.normal(0, 0.0005, len(data))` from NumPy's global random state on
every call; the draws of one call are modelled as the explicit argument
`draws` (one cell per row).  Everything after the draw is as in the source:
`fr_buy_signal = funding_rate < -threshold`,
`fr_sell_signal = funding_rate > threshold`. -/
def fundingRate_calculate (threshold : ℚ) (draws : List FVal) (bars : List Bar) :
    List FRRow :=
  (List.range bars.length).map fun i =>
    let r := draws.getD i .nan
    { bar := bars.getD i default, funding_rate := r,
      fr_buy_signal := flt r (.val (-threshold)),
      fr_sell_signal := fgt r (.val threshold) }

/-- `FundingRateStrategy.get_signal`: reads `iloc[-1]` with no length guard,
so an empty frame raises an `IndexError`. -/
def fundingRate_get_signal (frame : List FRRow) : Except String String :=
  match frame.getLast? with
  | none => .error "IndexError"
  | some r =>
      .ok (if r.fr_buy_signal then "buy" else if r.fr_sell_signal then "sell" else "hold")

/-- The mutable state of a `TradingBot` relevant to the settled claims:
the stored market data and the position flag. -/
structure BotState where
  data : Option (List Bar)
  in_position : Bool
deriving Repr

/-- `TradingBot.fetch_data`.  The exchange call
`exchange.fetch_ohlcv(...)` either returns a bar list or raises; a raise is
caught, `None` is returned and `self.data` is not assigned.  On success the
DataFrame is built from `bars[:-1]` (the still-forming last candle is
dropped) and stored.  The `pd.to_datetime` column conversion relabels
timestamps bijectively and is left implicit. -/
def fetch_data (fetched : Except String (List Bar)) (st : BotState) :
    Option (List Bar) × BotState :=
  match fetched with
  | .error _ => (none, st)
  | .ok bars =>
      let df := bars.dropLast
      (some df, { st with data := some df })

/-- A duck-typed strategy object as `TradingBot.run_strategies` sees one:
a name, an activity flag, and the two fallible operations (a Python
exception raised inside either is an `Except.error`).  `F` is the type of
the strategy's indicator frame. -/
structure MStrategy (F : Type) where
  name : String
  is_active : Bool
  calculate : List Bar → Except String F
  get_signal : F → Except String String

/-- The body of the `for strategy in self.strategies` loop of
`TradingBot.run_strategies` for one strategy: skipped when inactive,
`calculate` then `get_signal` inside one `try` otherwise; an exception in
either yields no entry. -/
def evalStrategy {F : Type} (data : List Bar) (s : MStrategy F) :
    Option (String × F × String) :=
  if s.is_active then
    match s.calculate data with
    | .error _ => none
    | .ok frame =>
        match s.get_signal frame with
        | .error _ => none
        | .ok sig => some (s.name, frame, sig)
  else none

/-- `TradingBot.run_strategies`: with no data, the empty mapping; otherwise
every active strategy is run on its own copy of the data, a raising strategy
is logged and skipped, and the surviving results are collected keyed by
strategy name (modelled as an association list in loop order; the dict
lookup is `List.find?` on the name). -/
def run_strategies {F : Type} (st : BotState) (strategies : List (MStrategy F)) :
    List (String × F × String) :=
  match st.data with
  | none => []
  | some data => strategies.filterMap (evalStrategy data)

/-- `TradingBot.get_combined_signal`, with `self.current_signals.values()`
passed explicitly as the list of per-strategy signals (the dict is keyed by
strategy name, so `signals` lists one entry per active, non-failing
strategy). -/
def get_combined_signal (signals : List String) (mode : String) : String :=
  if signals = [] then "hold"
  else if mode = "majority" then
    let buy_count := signals.count "buy"
    let sell_count := signals.count "sell"
    let hold_count := signals.count "hold"
    if buy_count > sell_count ∧ buy_count > hold_count then "buy"
    else if sell_count > buy_count ∧ sell_count > hold_count then "sell"
    else "hold"
  else if mode = "consensus" then
    if signals.all fun s => s = "buy" then "buy"
    else if signals.all fun s => s = "sell" then "sell"
    else "hold"
  else if mode = "any" then
    if signals.contains "buy" then "buy"
    else if signals.contains "sell" then "sell"
    else "hold"
  else "hold"

/-- The Aggregator majority rule in the spec's words: the signal whose count
among Buy/Sell/Hold is strictly greater than each of the other two counts;
Hold when no signal has a strictly greatest count (including the empty
mapping). -/
def majoritySpecRule (signals : List String) : String :=
  let b := signals.count "buy"
  let s := signals.count "sell"
  let h := signals.count "hold"
  if b > s ∧ b > h then "buy"
  else if s > b ∧ s > h then "sell"
  else if h > b ∧ h > s then "hold"
  else "hold"

/-- `TradingBot.execute_order` acting on the position flag: returns
`(placed?, new in_position)`.  The exchange order calls are commented out in
the source, so the `try` bodies cannot raise; a Buy while flat sets the flag
and reports `True`, a Sell while long clears it and reports `True`, and
every other combination (including Hold and arbitrary signal strings) falls
through to `return False` leaving the flag alone. -/
def execute_order (in_position : Bool) (signal : String) : Bool × Bool :=
  if signal = "buy" ∧ in_position = false then (true, true)
  else if signal = "sell" ∧ in_position = true then (true, false)
  else (false, in_position)

/-! ## Helper lemmas -/

theorem fgt_nan_right (x : FVal) : fgt x .nan = false := by cases x <;> rfl

theorem fgt_nan_left (x : FVal) : fgt .nan x = false := by cases x <;> rfl

theorem flt_nan_right (x : FVal) : flt x .nan = false := by cases x <;> rfl

theorem flt_nan_left (x : FVal) : flt .nan x = false := by cases x <;> rfl

theorem fle_nan_right (x : FVal) : fle x .nan = false := by cases x <;> rfl

theorem fle_nan_left (x : FVal) : fle .nan x = false := by cases x <;> rfl

theorem fge_nan_right (x : FVal) : fge x .nan = false := by cases x <;> rfl

theorem fge_nan_left (x : FVal) : fge .nan x = false := by cases x <;> rfl

/-- `getD` through a map over `List.range`: the workhorse for reading one
cell of a column built row-by-row. -/
theorem rangeMap_getD {α : Type} (n : ℕ) (f : ℕ → α) (i : ℕ) (d : α) (hi : i < n) :
    ((List.range n).map f).getD i d = f i := by
  rw [List.getD_eq_getElem?_getD, List.getElem?_map, List.getElem?_range hi]
  rfl

/-- `getD` through a map over `List.range`, out of range. -/
theorem rangeMap_getD_oob {α : Type} (n : ℕ) (f : ℕ → α) (i : ℕ) (d : α) (hi : ¬ i < n) :
    ((List.range n).map f).getD i d = d := by
  rw [List.getD_eq_getElem?_getD, List.getElem?_map]
  rw [List.getElem?_eq_none (by simpa using hi)]
  rfl

theorem rangeMap_length {α : Type} (n : ℕ) (f : ℕ → α) :
    ((List.range n).map f).length = n := by simp

/-- `getLast?` of a column built over `List.range`. -/
theorem rangeMap_getLast? {α : Type} (n : ℕ) (f : ℕ → α) (hn : 0 < n) :
    ((List.range n).map f).getLast? = some (f (n - 1)) := by
  rw [List.getLast?_eq_getElem?, List.getElem?_map, rangeMap_length]
  rw [List.getElem?_range (by omega)]
  rfl

/-- A rolling-mean cell with fewer than `w` observations available is NaN
(also covers the degenerate `w = 0` and out-of-range reads). -/
theorem rollingMean_getD_nan (w : ℕ) (xs : List FVal) (i : ℕ) (hi : i + 1 < w ∨ w = 0) :
    (rollingMean w xs).getD i .nan = .nan := by
  unfold rollingMean
  by_cases h : i < xs.length
  · rw [rangeMap_getD _ _ _ _ h]
    have : (w = 0 ∨ i + 1 < w) := hi.symm
    simp [this]
  · exact rangeMap_getD_oob _ _ _ _ h

theorem rollingMean_length (w : ℕ) (xs : List FVal) :
    (rollingMean w xs).length = xs.length := by
  unfold rollingMean; simp

/-- A surviving entry of the Strategy Runner is keyed by the name of the
strategy that produced it. -/
theorem evalStrategy_name {F : Type} (data : List Bar) (s : MStrategy F)
    (e : String × F × String) (h : evalStrategy data s = some e) : e.1 = s.name := by
  unfold evalStrategy at h
  split at h
  · split at h
    · exact absurd h (by simp)
    · split at h
      · exact absurd h (by simp)
      · injection h with h1
        subst h1
        rfl
  · exact absurd h (by simp)

/-- Looking up a name held by no strategy of the list finds nothing. -/
theorem find?_run_none {F : Type} (data : List Bar) (strategies : List (MStrategy F))
    (n : String) (hn : n ∉ strategies.map MStrategy.name) :
    (strategies.filterMap (evalStrategy data)).find? (fun e => e.1 == n) = none := by
  induction strategies with
  | nil => rfl
  | cons t rest ih =>
      have hn1 : ¬ t.name = n := by
        intro he
        exact hn (by simp [he])
      have hn2 : n ∉ rest.map MStrategy.name := by
        intro he
        exact hn (by simp [he])
      rw [List.filterMap_cons]
      cases he : evalStrategy data t with
      | none => exact ih hn2
      | some e =>
          rw [List.find?_cons_of_neg _ (by
            rw [evalStrategy_name data t e he]
            simpa using hn1)]
          exact ih hn2

/-- With pairwise-distinct strategy names, looking a strategy's name up in
the Runner's result is exactly running that one strategy. -/
theorem find?_run_eq_evalStrategy {F : Type} (data : List Bar)
    (strategies : List (MStrategy F)) (s : MStrategy F)
    (hnd : (strategies.map MStrategy.name).Nodup) (hs : s ∈ strategies) :
    (strategies.filterMap (evalStrategy data)).find? (fun e => e.1 == s.name) =
      evalStrategy data s := by
  induction strategies with
  | nil => cases hs
  | cons t rest ih =>
      rw [List.map_cons, List.nodup_cons] at hnd
      rw [List.filterMap_cons]
      rcases List.mem_cons.mp hs with he | hmem
      · subst he
        cases hev : evalStrategy data s with
        | none => exact find?_run_none data rest s.name hnd.1
        | some e =>
            exact List.find?_cons_of_pos _ (by
              rw [evalStrategy_name data s e hev]
              simp)
      · have hne : ¬ t.name = s.name := by
          intro he
          exact hnd.1 (he ▸ List.mem_map_of_mem MStrategy.name hmem)
        cases hev : evalStrategy data t with
        | none => exact ih hnd.2 hmem
        | some e =>
            rw [List.find?_cons_of_neg _ (by
              rw [evalStrategy_name data t e hev]
              simpa using hne)]
            exact ih hnd.2 hmem

/-- When the previous row's bands are both NaN, the Supertrend loop body
compares the close against NaN (both comparisons false), holds the previous
trend flag, and keeps the current raw bands. -/
theorem stStep_nan_prev (prev : FVal × FVal × Bool) (cur : ℚ × FVal × FVal)
    (h1 : prev.1 = .nan) (h2 : prev.2.1 = .nan) :
    stStep prev cur = (cur.2.1, cur.2.2, prev.2.2) := by
  unfold stStep
  rw [h1, h2, fgt_nan_right, flt_nan_right, flt_nan_right, fgt_nan_right]
  simp

theorem stRest_length (prev : FVal × FVal × Bool) (l : List (ℚ × FVal × FVal)) :
    (stRest prev l).length = l.length := by
  induction l generalizing prev with
  | nil => rfl
  | cons c cs ih => simpa [stRest] using ih (stStep prev c)

/-- If the carried-in row has NaN bands and an up flag, and every loop input
except possibly the last has NaN raw bands, every produced row keeps the up
flag. -/
theorem stRest_all_up (prev : FVal × FVal × Bool) (l : List (ℚ × FVal × FVal))
    (hp1 : prev.1 = .nan) (hp2 : prev.2.1 = .nan) (hp3 : prev.2.2 = true)
    (hl : ∀ j, j + 1 < l.length →
      (l.getD j default).2.1 = .nan ∧ (l.getD j default).2.2 = .nan) :
    ∀ s ∈ stRest prev l, s.2.2 = true := by
  induction l generalizing prev with
  | nil => intro s hs; cases hs
  | cons c cs ih =>
      intro s hs
      rw [stRest, stStep_nan_prev prev c hp1 hp2] at hs
      rcases List.mem_cons.mp hs with he | hmem
      · rw [he, hp3]
      · cases cs with
        | nil => cases hmem
        | cons c2 cs2 =>
            have hc := hl 0 (by simp)
            simp only [List.getD_cons_zero] at hc
            refine ih (c.2.1, c.2.2, prev.2.2) hc.1 hc.2 hp3 ?_ s hmem
            intro j hj
            have hj2 := hl (j + 1) (by simpa using Nat.succ_lt_succ hj)
            simpa only [List.getD_cons_succ] using hj2

theorem stRaw_length (period : ℕ) (multiplier : ℚ) (bars : List Bar) :
    (stRaw period multiplier bars).length = bars.length := by
  unfold stRaw
  simp

theorem stStates_length (period : ℕ) (multiplier : ℚ) (bars : List Bar) :
    (stStates period multiplier bars).length = bars.length := by
  unfold stStates
  cases hr : stRaw period multiplier bars with
  | nil =>
      have h := stRaw_length period multiplier bars
      rw [hr] at h
      simp at h
      simp [h]
  | cons r0 rest =>
      have h := stRaw_length period multiplier bars
      rw [hr] at h
      simpa [stRest_length] using h

/-- A raw-band triple whose ATR cell is still NaN (fewer than `period` True
Range observations) has NaN raw bands. -/
theorem stRaw_getD_nan (period : ℕ) (multiplier : ℚ) (bars : List Bar) (i : ℕ)
    (hi : i < bars.length) (hp : i + 1 < period) :
    (stRaw period multiplier bars).getD i default =
      ((bars.getD i default).close, .nan, .nan) := by
  unfold stRaw
  dsimp only
  rw [rangeMap_getD _ _ i _ hi]
  have ha : (supertrend_atr period bars).getD i .nan = .nan := by
    unfold supertrend_atr
    exact rollingMean_getD_nan _ _ _ (Or.inl hp)
  rw [ha]
  rfl

/-- With a series no longer than the ATR period, every Supertrend row keeps
the initial up flag: only the last bar can have a defined ATR, and the trend
comparisons at each bar read the previous bar's (NaN) bands. -/
theorem stStates_all_up (period : ℕ) (multiplier : ℚ) (bars : List Bar)
    (hb : bars.length ≤ period) :
    ∀ s ∈ stStates period multiplier bars, s.2.2 = true := by
  unfold stStates
  cases hr : stRaw period multiplier bars with
  | nil => intro s hs; cases hs
  | cons r0 rest =>
      intro s hs
      have hlen := stRaw_length period multiplier bars
      rw [hr] at hlen
      rcases List.mem_cons.mp hs with he | hmem
      · rw [he]
      · cases rest with
        | nil => cases hmem
        | cons r1 rest2 =>
            simp only [List.length_cons] at hlen
            have hr0 : r0 = ((bars.getD 0 default).close, .nan, .nan) := by
              have h0 := stRaw_getD_nan period multiplier bars 0 (by omega) (by omega)
              rw [hr] at h0
              simpa using h0
            refine stRest_all_up (r0.2.1, r0.2.2, true) (r1 :: rest2)
              (by rw [hr0]) (by rw [hr0]) rfl ?_ s hmem
            intro j hj
            simp only [List.length_cons] at hj
            have hcell : ((r1 :: rest2).getD j default) =
                (stRaw period multiplier bars).getD (j + 1) default := by
              rw [hr, List.getD_cons_succ]
            rw [hcell, stRaw_getD_nan period multiplier bars (j + 1) (by omega) (by omega)]
            exact ⟨rfl, rfl⟩

/-- With fewer than `period` closes available, the lower Bollinger band is
NaN. -/
theorem bb_lower_col_getD_nan (p : ℕ) (ns : ℚ) (bars : List Bar) (j : ℕ)
    (hp : j + 1 < p) : (bb_lower_col p ns bars).getD j .nan = .nan := by
  unfold bb_lower_col
  by_cases hj : j < bars.length
  · rw [rangeMap_getD _ _ j _ hj]
    unfold bb_middle_col
    rw [rollingMean_getD_nan _ _ _ (Or.inl hp)]
    rfl
  · exact rangeMap_getD_oob _ _ _ _ hj

/-- With fewer than `period` closes available, the upper Bollinger band is
NaN. -/
theorem bb_upper_col_getD_nan (p : ℕ) (ns : ℚ) (bars : List Bar) (j : ℕ)
    (hp : j + 1 < p) : (bb_upper_col p ns bars).getD j .nan = .nan := by
  unfold bb_upper_col
  by_cases hj : j < bars.length
  · rw [rangeMap_getD _ _ j _ hj]
    unfold bb_middle_col
    rw [rollingMean_getD_nan _ _ _ (Or.inl hp)]
    rfl
  · exact rangeMap_getD_oob _ _ _ _ hj

/-- Against a NaN lower band, `close < bb_lower` is false. -/
theorem bb_below_col_getD_false (p : ℕ) (ns : ℚ) (bars : List Bar) (j : ℕ)
    (hp : j + 1 < p) : (bb_below_col p ns bars).getD j false = false := by
  unfold bb_below_col
  by_cases hj : j < bars.length
  · rw [rangeMap_getD _ _ j _ hj, bb_lower_col_getD_nan p ns bars j hp, flt_nan_right]
  · exact rangeMap_getD_oob _ _ _ _ hj

/-- Against a NaN upper band, `close > bb_upper` is false. -/
theorem bb_above_col_getD_false (p : ℕ) (ns : ℚ) (bars : List Bar) (j : ℕ)
    (hp : j + 1 < p) : (bb_above_col p ns bars).getD j false = false := by
  unfold bb_above_col
  by_cases hj : j < bars.length
  · rw [rangeMap_getD _ _ j _ hj, bb_upper_col_getD_nan p ns bars j hp, fgt_nan_right]
  · exact rangeMap_getD_oob _ _ _ _ hj

theorem flt_val_false {p q : ℚ} (h : flt (.val p) (.val q) = false) : q ≤ p := by
  unfold flt at h
  exact le_of_not_lt (by simpa using h)

theorem fgt_val_false {p q : ℚ} (h : fgt (.val p) (.val q) = false) : p ≤ q := by
  unfold fgt at h
  exact le_of_not_lt (by simpa using h)

/-- Row `j + 1` of the Supertrend loop output is the loop body applied to
row `j` and the raw triple `j + 1`. -/
theorem stRest_getD_succ (prev : FVal × FVal × Bool) (l : List (ℚ × FVal × FVal))
    (j : ℕ) (hj : j + 1 < l.length) :
    (stRest prev l).getD (j + 1) default =
      stStep ((stRest prev l).getD j default) (l.getD (j + 1) default) := by
  induction l generalizing prev j with
  | nil => simp at hj
  | cons c cs ih =>
      cases cs with
      | nil => simp at hj
      | cons c2 cs2 =>
          cases j with
          | zero => rfl
          | succ k =>
              have hk : k + 1 < (c2 :: cs2).length := by
                simp at hj ⊢
                omega
              have := ih (stStep prev c) k hk
              simpa [stRest, List.getD_cons_succ] using this

/-- The finalised Supertrend state of bar `i ≥ 1` is the loop body applied
to the finalised state of bar `i - 1` and the raw triple of bar `i`. -/
theorem stStates_getD_succ (period : ℕ) (multiplier : ℚ) (bars : List Bar)
    (i : ℕ) (h1 : 1 ≤ i) (hi : i < bars.length) :
    (stStates period multiplier bars).getD i default =
      stStep ((stStates period multiplier bars).getD (i - 1) default)
        ((stRaw period multiplier bars).getD i default) := by
  have hlen := stRaw_length period multiplier bars
  unfold stStates
  cases hr : stRaw period multiplier bars with
  | nil =>
      rw [hr] at hlen
      simp at hlen
      omega
  | cons r0 rest =>
      rw [hr] at hlen
      simp at hlen
      obtain ⟨j, rfl⟩ : ∃ j, i = j + 1 := ⟨i - 1, by omega⟩
      simp only [List.getD_cons_succ, Nat.add_sub_cancel]
      cases j with
      | zero =>
          cases rest with
          | nil => simp at hlen; omega
          | cons r1 rest2 => rfl
      | succ k =>
          rw [List.getD_cons_succ]
          exact stRest_getD_succ _ rest k (by omega)

/-- Reading one row of the Supertrend frame: bar, ATR cell, and the
finalised band/flag state. -/
theorem supertrend_calculate_getD (period : ℕ) (multiplier : ℚ) (bars : List Bar)
    (i : ℕ) (hi : i < bars.length) :
    (supertrend_calculate period multiplier bars).getD i default =
      { bar := bars.getD i default,
        atr := (supertrend_atr period bars).getD i .nan,
        upperband := ((stStates period multiplier bars).getD i default).1,
        lowerband := ((stStates period multiplier bars).getD i default).2.1,
        in_uptrend := ((stStates period multiplier bars).getD i default).2.2 } := by
  unfold supertrend_calculate
  dsimp only
  rw [rangeMap_getD _ _ i _ hi]

theorem stRaw_getD_fst (period : ℕ) (multiplier : ℚ) (bars : List Bar)
    (i : ℕ) (hi : i < bars.length) :
    ((stRaw period multiplier bars).getD i default).1 = (bars.getD i default).close := by
  unfold stRaw
  dsimp only
  rw [rangeMap_getD _ _ i _ hi]

/-- When the close neither breaks above the previous upper band nor below
the previous lower band, the loop holds the previous flag and applies the
two guarded ratchets. -/
theorem stStep_hold (prev : FVal × FVal × Bool) (cur : ℚ × FVal × FVal)
    (hu : fgt (.val cur.1) prev.1 = false)
    (hd : flt (.val cur.1) prev.2.1 = false) :
    stStep prev cur =
      ((if !prev.2.2 && fgt cur.2.1 prev.1 then prev.1 else cur.2.1),
       (if prev.2.2 && flt cur.2.2 prev.2.1 then prev.2.1 else cur.2.2),
       prev.2.2) := by
  unfold stStep
  rw [hu, hd]
  simp

/-! ## Claim theorems -/

/-- **C4** — Position Gate: from Flat, Buy opens Long and succeeds while
Sell and Hold fail leaving Flat; from Long, Sell closes to Flat and succeeds
while Buy and Hold fail leaving Long; of two consecutive Buys from Flat the
first succeeds and the second fails leaving the state Long. -/
theorem position_gate_state_machine :
    execute_order false "buy" = (true, true) ∧
    execute_order false "sell" = (false, false) ∧
    execute_order false "hold" = (false, false) ∧
    execute_order true "buy" = (false, true) ∧
    execute_order true "sell" = (true, false) ∧
    execute_order true "hold" = (false, true) ∧
    (execute_order false "buy").1 = true ∧
    execute_order (execute_order false "buy").2 "buy" = (false, true) := by
  decide

/-- **C10** — `execute_order` flips the position flag exactly when it
reports success; on any signal string other than `"buy"` and `"sell"` it
reports failure with the flag unchanged, and so do a Buy while already in
position and a Sell while flat. -/
theorem execute_order_success_iff_flip (signal : String) (pos : Bool) :
    ((execute_order pos signal).1 = true ↔ (execute_order pos signal).2 ≠ pos) ∧
    (signal ≠ "buy" → signal ≠ "sell" → execute_order pos signal = (false, pos)) ∧
    execute_order true "buy" = (false, true) ∧
    execute_order false "sell" = (false, false) := by
  refine ⟨?_, ?_, by decide, by decide⟩
  · unfold execute_order
    split_ifs with h1 h2 <;> simp_all
  · intro hb hs
    unfold execute_order
    split_ifs with h1 h2 <;> simp_all

/-- Witness for `execute_order_success_iff_flip` at the concrete signal
string `"close_all"` in the Long state. -/
theorem execute_order_success_iff_flip_witness :
    execute_order true "close_all" = (false, true) :=
  (execute_order_success_iff_flip "close_all" true).2.1 (by decide) (by decide)

/-- **C5** — majority mode returns the strict-argmax signal and Hold on
ties or an empty mapping; in particular Buy,Buy,Sell combine to Buy and
Buy,Sell,Hold combine to Hold. -/
theorem majority_mode_strict_argmax :
    (∀ signals : List String,
      get_combined_signal signals "majority" = majoritySpecRule signals) ∧
    get_combined_signal ["buy", "buy", "sell"] "majority" = "buy" ∧
    get_combined_signal ["buy", "sell", "hold"] "majority" = "hold" ∧
    get_combined_signal [] "majority" = "hold" := by
  refine ⟨fun signals => ?_, by decide, by decide, by decide⟩
  unfold get_combined_signal majoritySpecRule
  by_cases he : signals = []
  · subst he; decide
  · rw [if_neg he, if_pos rfl]
    dsimp only
    split_ifs <;> rfl

/-- **C6** — "any" mode: Buy wins whenever present, otherwise Sell whenever
present, otherwise Hold. -/
theorem any_mode_buy_over_sell (signals : List String) (h : signals ≠ []) :
    get_combined_signal signals "any" =
      if signals.contains "buy" then "buy"
      else if signals.contains "sell" then "sell"
      else "hold" := by
  unfold get_combined_signal
  rw [if_neg h, if_neg (by decide), if_neg (by decide), if_pos rfl]

/-- Witness for `any_mode_buy_over_sell`: Buy takes priority over a Sell
appearing earlier in the mapping. -/
theorem any_mode_buy_over_sell_witness :
    get_combined_signal ["hold", "sell", "buy"] "any" = "buy" := by
  rw [any_mode_buy_over_sell ["hold", "sell", "buy"] (by decide)]
  decide

/-- **C2 counterexample** — two invocations of
`FundingRateStrategy.calculate` on the same one-bar series and the same
threshold, consuming different values from NumPy's global random stream
(as two successive calls do), return different frames: the claim that every
strategy's `calculate` is a function of series and parameters alone is
false for the Funding Rate strategy. -/
theorem fundingRate_two_calls_differ :
    fundingRate_calculate (1/1000) [.val 0] [⟨0, 10, 10, 10, 10, 0⟩] ≠
    fundingRate_calculate (1/1000) [.val (1/100)] [⟨0, 10, 10, 10, 10, 0⟩] := by
  with_unfolding_all decide

/-- **C2 amended** — Supertrend, Golden Cross, and Bollinger Bands
`calculate` are deterministic functions of the candle series and the
parameters; Funding Rate's `calculate` is a deterministic function of the
series, the threshold, and the freshly drawn random rates, and genuinely
depends on the draws, so two calls with different global-RNG states can
return different frames. -/
theorem calculate_determinism_characterised :
    (∀ p m bars, supertrend_calculate p m bars = supertrend_calculate p m bars) ∧
    (∀ sp lp bars, goldenCross_calculate sp lp bars = goldenCross_calculate sp lp bars) ∧
    (∀ p ns bars, bollinger_calculate p ns bars = bollinger_calculate p ns bars) ∧
    (∀ th draws bars,
      fundingRate_calculate th draws bars = fundingRate_calculate th draws bars) ∧
    (∃ th draws1 draws2 bars,
      fundingRate_calculate th draws1 bars ≠ fundingRate_calculate th draws2 bars) := by
  refine ⟨fun _ _ _ => rfl, fun _ _ _ => rfl, fun _ _ _ => rfl, fun _ _ _ => rfl,
    ⟨1/1000, [.val 0], [.val 1], [⟨0, 10, 10, 10, 10, 0⟩], ?_⟩⟩
  with_unfolding_all decide

/-- **C9** — `fetch_data` drops the still-forming last candle: a successful
fetch of `n ≥ 1` bars stores and returns exactly the first `n - 1` bars in
order, and a fetch exception returns `None` leaving the stored data
unchanged. -/
theorem fetch_data_drops_forming_candle (bars : List Bar) (st : BotState)
    (h : 1 ≤ bars.length) :
    fetch_data (.ok bars) st =
      (some (bars.take (bars.length - 1)),
        { st with data := some (bars.take (bars.length - 1)) }) ∧
    (∀ e, fetch_data (.error e) st = (none, st)) := by
  constructor
  · dsimp only [fetch_data]
    rw [List.dropLast_eq_take]
  · intro e; rfl

/-- **C7** — Strategy Runner failure isolation: with distinct strategy
names, the lookup of a strategy in the result mapping of `run_strategies`
is `none` when the strategy is inactive, `none` when its `calculate` or its
`get_signal` raises (the failure is swallowed, leaving every other
strategy's entry intact), and its own `(frame, signal)` entry when both
succeed. -/
theorem runner_failure_isolation {F : Type} (st : BotState) (data : List Bar)
    (strategies : List (MStrategy F)) (hd : st.data = some data)
    (hnd : (strategies.map MStrategy.name).Nodup)
    (s : MStrategy F) (hs : s ∈ strategies) :
    (s.is_active = false →
      (run_strategies st strategies).find? (fun e => e.1 == s.name) = none) ∧
    (∀ err, s.is_active = true → s.calculate data = .error err →
      (run_strategies st strategies).find? (fun e => e.1 == s.name) = none) ∧
    (∀ frame err, s.is_active = true → s.calculate data = .ok frame →
      s.get_signal frame = .error err →
      (run_strategies st strategies).find? (fun e => e.1 == s.name) = none) ∧
    (∀ frame sig, s.is_active = true → s.calculate data = .ok frame →
      s.get_signal frame = .ok sig →
      (run_strategies st strategies).find? (fun e => e.1 == s.name) =
        some (s.name, frame, sig)) := by
  have hrun : run_strategies st strategies = strategies.filterMap (evalStrategy data) := by
    unfold run_strategies
    rw [hd]
  rw [hrun, find?_run_eq_evalStrategy data strategies s hnd hs]
  refine ⟨fun ha => ?_, fun err ha hc => ?_, fun frame err ha hc hg => ?_,
    fun frame sig ha hc hg => ?_⟩
  · unfold evalStrategy
    rw [ha]
    rfl
  · unfold evalStrategy
    rw [ha, hc]
    rfl
  · simp [evalStrategy, ha, hc, hg]
  · simp [evalStrategy, ha, hc, hg]

/-- Witness for `runner_failure_isolation`: three concrete strategies — an
active succeeding one, an active one whose `calculate` raises, and an
inactive one — over a one-bar snapshot.  The failing and the inactive
strategy contribute no entry while the succeeding one still does. -/
theorem runner_failure_isolation_witness :
    (@run_strategies (List Bar) ⟨some [⟨0, 1, 1, 1, 1, 1⟩], false⟩
        [⟨"ok", true, fun d => .ok d, fun _ => .ok "buy"⟩,
         ⟨"bad", true, fun _ => .error "ParameterError", fun _ => .ok "buy"⟩,
         ⟨"off", false, fun d => .ok d, fun _ => .ok "sell"⟩]).find?
      (fun e => e.1 == "bad") = none ∧
    (@run_strategies (List Bar) ⟨some [⟨0, 1, 1, 1, 1, 1⟩], false⟩
        [⟨"ok", true, fun d => .ok d, fun _ => .ok "buy"⟩,
         ⟨"bad", true, fun _ => .error "ParameterError", fun _ => .ok "buy"⟩,
         ⟨"off", false, fun d => .ok d, fun _ => .ok "sell"⟩]).find?
      (fun e => e.1 == "off") = none ∧
    (@run_strategies (List Bar) ⟨some [⟨0, 1, 1, 1, 1, 1⟩], false⟩
        [⟨"ok", true, fun d => .ok d, fun _ => .ok "buy"⟩,
         ⟨"bad", true, fun _ => .error "ParameterError", fun _ => .ok "buy"⟩,
         ⟨"off", false, fun d => .ok d, fun _ => .ok "sell"⟩]).find?
      (fun e => e.1 == "ok") = some ("ok", [⟨0, 1, 1, 1, 1, 1⟩], "buy") := by
  refine ⟨?_, ?_, ?_⟩
  · exact (runner_failure_isolation _ [⟨0, 1, 1, 1, 1, 1⟩] _ rfl (by decide)
      ⟨"bad", true, fun _ => .error "ParameterError", fun _ => .ok "buy"⟩
      (by simp)).2.1 "ParameterError" rfl rfl
  · exact (runner_failure_isolation _ [⟨0, 1, 1, 1, 1, 1⟩] _ rfl (by decide)
      ⟨"off", false, fun d => .ok d, fun _ => .ok "sell"⟩
      (by simp)).1 rfl
  · exact (runner_failure_isolation _ [⟨0, 1, 1, 1, 1, 1⟩] _ rfl (by decide)
      ⟨"ok", true, fun d => .ok d, fun _ => .ok "buy"⟩
      (by simp)).2.2.2 [⟨0, 1, 1, 1, 1, 1⟩] "buy" rfl rfl rfl

/-- **C1 counterexample** — the ratchet does not hold across a breakout
bar: with period 1 and multiplier 1, bars (h=l=c=10) then (h=20, l=0, c=20),
the close 20 breaks above the previous upper band 10, so bar 1 takes the
breakout branch: both bars are marked in-uptrend yet the lower band drops
from 10 to -10, refuting the claimed inequality for consecutive in-uptrend
bars. -/
theorem supertrend_ratchet_as_stated_false :
    ((supertrend_calculate 1 1 [⟨0, 10, 10, 10, 10, 0⟩, ⟨1, 20, 20, 0, 20, 0⟩]).getD 0
      default).in_uptrend = true ∧
    ((supertrend_calculate 1 1 [⟨0, 10, 10, 10, 10, 0⟩, ⟨1, 20, 20, 0, 20, 0⟩]).getD 1
      default).in_uptrend = true ∧
    ((supertrend_calculate 1 1 [⟨0, 10, 10, 10, 10, 0⟩, ⟨1, 20, 20, 0, 20, 0⟩]).getD 0
      default).lowerband = .val 10 ∧
    ((supertrend_calculate 1 1 [⟨0, 10, 10, 10, 10, 0⟩, ⟨1, 20, 20, 0, 20, 0⟩]).getD 1
      default).lowerband = .val (-10) ∧
    ¬ ((10 : ℚ) ≤ -10) := by
  with_unfolding_all decide

/-- **C1 amended** — the band ratchet holds exactly where the loop applies
it: at every bar `i ≥ 1` whose close neither exceeds the previous bar's
upper band nor falls below the previous bar's lower band (the hold branch),
if the previous bar is in-uptrend then any defined lower-band values of the
two bars satisfy `lowerband[i-1] ≤ lowerband[i]`, and if the previous bar is
in-downtrend then any defined upper-band values satisfy
`upperband[i] ≤ upperband[i-1]`. -/
theorem supertrend_ratchet_in_hold_branch (period : ℕ) (mult : ℚ) (bars : List Bar)
    (i : ℕ) (h1 : 1 ≤ i) (hi : i < bars.length)
    (hup : fgt (.val (bars.getD i default).close)
      ((supertrend_calculate period mult bars).getD (i - 1) default).upperband = false)
    (hdn : flt (.val (bars.getD i default).close)
      ((supertrend_calculate period mult bars).getD (i - 1) default).lowerband = false) :
    (((supertrend_calculate period mult bars).getD (i - 1) default).in_uptrend = true →
      ∀ a b : ℚ,
        ((supertrend_calculate period mult bars).getD (i - 1) default).lowerband = .val a →
        ((supertrend_calculate period mult bars).getD i default).lowerband = .val b →
        a ≤ b) ∧
    (((supertrend_calculate period mult bars).getD (i - 1) default).in_uptrend = false →
      ∀ a b : ℚ,
        ((supertrend_calculate period mult bars).getD (i - 1) default).upperband = .val a →
        ((supertrend_calculate period mult bars).getD i default).upperband = .val b →
        b ≤ a) := by
  have hprev : i - 1 < bars.length := lt_of_le_of_lt (Nat.sub_le i 1) hi
  rw [supertrend_calculate_getD period mult bars (i - 1) hprev] at hup hdn ⊢
  rw [supertrend_calculate_getD period mult bars i hi]
  dsimp only at hup hdn ⊢
  rw [stStates_getD_succ period mult bars i h1 hi]
  have hc1 := stRaw_getD_fst period mult bars i hi
  rw [← hc1] at hup hdn
  rw [stStep_hold _ _ hup hdn]
  dsimp only
  constructor
  · intro hflag a b ha hb
    rw [hflag, ha] at hb
    simp only [Bool.true_and] at hb
    by_cases hr : flt ((stRaw period mult bars).getD i default).2.2 (.val a) = true
    · rw [if_pos hr] at hb
      injection hb with hb1
      exact le_of_eq hb1
    · rw [if_neg hr] at hb
      rw [hb] at hr
      exact flt_val_false (by simpa using hr)
  · intro hflag a b ha hb
    rw [hflag, ha] at hb
    simp only [Bool.not_false, Bool.true_and] at hb
    by_cases hr : fgt ((stRaw period mult bars).getD i default).2.1 (.val a) = true
    · rw [if_pos hr] at hb
      injection hb with hb1
      exact le_of_eq hb1.symm
    · rw [if_neg hr] at hb
      rw [hb] at hr
      exact fgt_val_false (by simpa using hr)

/-- Witness for `supertrend_ratchet_in_hold_branch`: period 1, multiplier 1,
bars (h=l=c=10) then (h=12, l=8, c=10); bar 1 stays inside the previous
bands, is in-uptrend, its raw lower band 6 is ratcheted back up to 10, and
`10 ≤ 10` follows by the theorem. -/
theorem supertrend_ratchet_in_hold_branch_witness : (10 : ℚ) ≤ 10 :=
  (supertrend_ratchet_in_hold_branch 1 1 [⟨0, 10, 10, 10, 10, 0⟩, ⟨1, 10, 12, 8, 10, 0⟩]
      1 (by decide) (by decide)
      (by with_unfolding_all decide) (by with_unfolding_all decide)).1
    (by with_unfolding_all decide) 10 10
    (by with_unfolding_all decide) (by with_unfolding_all decide)

/-- **C3 counterexample** — `GoldenCrossStrategy.get_signal` on the empty
frame produced by `calculate` (default parameters 50/200) on the empty
series raises an `IndexError` from `iloc[-1]` instead of returning Hold. -/
theorem goldenCross_empty_frame_raises :
    goldenCross_get_signal (goldenCross_calculate 50 200 []) = .error "IndexError" := rfl

/-- **C3 amended** — Supertrend's `get_signal` returns Hold on any frame
with fewer than two rows and after `calculate` on any series no longer than
its ATR period; Golden Cross, Bollinger Bands and Funding Rate `get_signal`
raise an `IndexError` on the empty frame produced by `calculate` on the
empty series; on one-row frames Golden Cross and Bollinger return Hold, as
they do on any non-empty series shorter than their lookback (`max`-window,
resp. `period`); Funding Rate on a one-row frame follows the drawn rate and
can return Buy. -/
theorem short_series_hold_behaviour :
    (∀ frame : List STRow, frame.length < 2 → supertrend_get_signal frame = "hold") ∧
    (∀ (period : ℕ) (mult : ℚ) (bars : List Bar), bars.length ≤ period →
      supertrend_get_signal (supertrend_calculate period mult bars) = "hold") ∧
    (∀ sp lp : ℕ,
      goldenCross_get_signal (goldenCross_calculate sp lp []) = .error "IndexError") ∧
    (∀ (p : ℕ) (ns : ℚ),
      bollinger_get_signal (bollinger_calculate p ns []) = .error "IndexError") ∧
    (∀ (th : ℚ) (draws : List FVal),
      fundingRate_get_signal (fundingRate_calculate th draws []) = .error "IndexError") ∧
    (∀ (sp lp : ℕ) (b : Bar),
      goldenCross_get_signal (goldenCross_calculate sp lp [b]) = .ok "hold") ∧
    (∀ (p : ℕ) (ns : ℚ) (b : Bar),
      bollinger_get_signal (bollinger_calculate p ns [b]) = .ok "hold") ∧
    (∀ (sp lp : ℕ) (bars : List Bar), bars ≠ [] → bars.length < max sp lp →
      goldenCross_get_signal (goldenCross_calculate sp lp bars) = .ok "hold") ∧
    (∀ (p : ℕ) (ns : ℚ) (bars : List Bar), bars ≠ [] → bars.length < p →
      bollinger_get_signal (bollinger_calculate p ns bars) = .ok "hold") ∧
    fundingRate_get_signal
      (fundingRate_calculate (1/1000) [.val (-1)] [⟨0, 1, 1, 1, 1, 1⟩]) = .ok "buy" := by
  have p1 : ∀ frame : List STRow, frame.length < 2 → supertrend_get_signal frame = "hold" := by
    intro frame h
    unfold supertrend_get_signal
    rw [if_pos h]
  have hstlen : ∀ (period : ℕ) (mult : ℚ) (bars : List Bar),
      (supertrend_calculate period mult bars).length = bars.length := by
    intro period mult bars
    unfold supertrend_calculate
    exact rangeMap_length _ _
  have p2 : ∀ (period : ℕ) (mult : ℚ) (bars : List Bar), bars.length ≤ period →
      supertrend_get_signal (supertrend_calculate period mult bars) = "hold" := by
    intro period mult bars hb
    by_cases h2 : bars.length < 2
    · exact p1 _ (by rw [hstlen]; exact h2)
    · have hup : ∀ i, i < bars.length →
          ((supertrend_calculate period mult bars).getD i default).in_uptrend = true := by
        intro i hi
        unfold supertrend_calculate
        dsimp only
        rw [rangeMap_getD _ _ i _ hi]
        dsimp only
        exact stStates_all_up period mult bars hb _ (by
          rw [List.getD_eq_getElem _ _ (by rw [stStates_length]; exact hi)]
          exact List.getElem_mem _)
      unfold supertrend_get_signal
      rw [hstlen]
      rw [if_neg h2]
      dsimp only
      rw [hup (bars.length - 1) (by omega), hup (bars.length - 2) (by omega)]
      rfl
  have p8 : ∀ (sp lp : ℕ) (bars : List Bar), bars ≠ [] → bars.length < max sp lp →
      goldenCross_get_signal (goldenCross_calculate sp lp bars) = .ok "hold" := by
    intro sp lp bars hne hlt
    have h0 : 0 < bars.length := List.length_pos.mpr hne
    unfold goldenCross_get_signal goldenCross_calculate
    dsimp only
    rw [rangeMap_getLast? _ _ h0]
    dsimp only
    by_cases h1 : bars.length - 1 = 0
    · rw [if_pos h1, if_pos h1]
      rfl
    · rw [if_neg h1, if_neg h1]
      rcases Nat.le_total sp lp with hsl | hls
      · have hnan : (rollingMean lp (bars.map fun b => FVal.val b.close)).getD
            (bars.length - 1) .nan = .nan :=
          rollingMean_getD_nan _ _ _ (Or.inl (by omega))
        rw [hnan, fgt_nan_right, flt_nan_right]
        simp
      · have hnan : (rollingMean sp (bars.map fun b => FVal.val b.close)).getD
            (bars.length - 1) .nan = .nan :=
          rollingMean_getD_nan _ _ _ (Or.inl (by omega))
        rw [hnan, fgt_nan_left, flt_nan_left]
        simp
  have p9 : ∀ (p : ℕ) (ns : ℚ) (bars : List Bar), bars ≠ [] → bars.length < p →
      bollinger_get_signal (bollinger_calculate p ns bars) = .ok "hold" := by
    intro p ns bars hne hlt
    have h0 : 0 < bars.length := List.length_pos.mpr hne
    unfold bollinger_get_signal bollinger_calculate
    rw [rangeMap_getLast? _ _ h0]
    dsimp only
    by_cases h1 : bars.length - 1 = 0
    · rw [if_pos h1, if_pos h1]
      rfl
    · rw [if_neg h1, if_neg h1]
      rw [bb_below_col_getD_false p ns bars (bars.length - 1 - 1) (by omega),
        bb_above_col_getD_false p ns bars (bars.length - 1 - 1) (by omega)]
      simp
  refine ⟨p1, p2, fun _ _ => rfl, fun _ _ => rfl, fun _ _ => rfl,
    fun _ _ _ => rfl, fun _ _ _ => rfl, p8, p9, ?_⟩
  with_unfolding_all rfl

/-- Witness for `short_series_hold_behaviour`: Supertrend with its default
period on a one-bar series, Golden Cross 50/200 and Bollinger 20/2 on a
two-bar series, all Hold. -/
theorem short_series_hold_behaviour_witness :
    supertrend_get_signal (supertrend_calculate 10 3 [⟨0, 1, 1, 1, 1, 1⟩]) = "hold" ∧
    goldenCross_get_signal
      (goldenCross_calculate 50 200 [⟨0, 1, 1, 1, 1, 1⟩, ⟨1, 2, 2, 2, 2, 1⟩]) = .ok "hold" ∧
    bollinger_get_signal
      (bollinger_calculate 20 2 [⟨0, 1, 1, 1, 1, 1⟩, ⟨1, 2, 2, 2, 2, 1⟩]) = .ok "hold" :=
  ⟨short_series_hold_behaviour.2.1 10 3 [⟨0, 1, 1, 1, 1, 1⟩] (by decide),
   short_series_hold_behaviour.2.2.2.2.2.2.2.1 50 200
     [⟨0, 1, 1, 1, 1, 1⟩, ⟨1, 2, 2, 2, 2, 1⟩] (by decide) (by decide),
   short_series_hold_behaviour.2.2.2.2.2.2.2.2.1 20 2
     [⟨0, 1, 1, 1, 1, 1⟩, ⟨1, 2, 2, 2, 2, 1⟩] (by decide) (by decide)⟩

/-- **C8** — Dual-Moving-Average crossover guard: a bar at which either
moving average, at that bar or at the immediately preceding bar, is NaN is
never marked `golden_cross` or `death_cross`; in particular the first bar at
which both moving averages are defined (bar `long_period - 1` for the usual
`short_period ≤ long_period`) never fires, because the long moving average
of the bar before it is still NaN. -/
theorem goldenCross_nan_no_event :
    (∀ (sp lp : ℕ) (bars : List Bar) (i : ℕ), i < bars.length →
      (((goldenCross_calculate sp lp bars).getD i default).ma_short = .nan ∨
       ((goldenCross_calculate sp lp bars).getD i default).ma_long = .nan ∨
       ((goldenCross_calculate sp lp bars).getD (i - 1) default).ma_short = .nan ∨
       ((goldenCross_calculate sp lp bars).getD (i - 1) default).ma_long = .nan) →
      ((goldenCross_calculate sp lp bars).getD i default).golden_cross = false ∧
      ((goldenCross_calculate sp lp bars).getD i default).death_cross = false) ∧
    (∀ (sp lp : ℕ) (bars : List Bar), 2 ≤ lp → sp ≤ lp → lp ≤ bars.length →
      ((goldenCross_calculate sp lp bars).getD (lp - 1) default).golden_cross = false ∧
      ((goldenCross_calculate sp lp bars).getD (lp - 1) default).death_cross = false) := by
  have part1 : ∀ (sp lp : ℕ) (bars : List Bar) (i : ℕ), i < bars.length →
      (((goldenCross_calculate sp lp bars).getD i default).ma_short = .nan ∨
       ((goldenCross_calculate sp lp bars).getD i default).ma_long = .nan ∨
       ((goldenCross_calculate sp lp bars).getD (i - 1) default).ma_short = .nan ∨
       ((goldenCross_calculate sp lp bars).getD (i - 1) default).ma_long = .nan) →
      ((goldenCross_calculate sp lp bars).getD i default).golden_cross = false ∧
      ((goldenCross_calculate sp lp bars).getD i default).death_cross = false := by
    intro sp lp bars i hi hyp
    have hi1 : i - 1 < bars.length := lt_of_le_of_lt (Nat.sub_le i 1) hi
    unfold goldenCross_calculate at hyp ⊢
    dsimp only at hyp ⊢
    rw [rangeMap_getD _ _ i _ hi] at hyp ⊢
    rw [rangeMap_getD _ _ (i - 1) _ hi1] at hyp
    dsimp only at hyp ⊢
    cases i with
    | zero => exact ⟨rfl, rfl⟩
    | succ j =>
        simp only [Nat.succ_ne_zero, if_false, Nat.succ_sub_one] at hyp ⊢
        rcases hyp with h | h | h | h <;>
          rw [h] <;>
          simp [fgt_nan_left, fgt_nan_right, flt_nan_left, flt_nan_right,
            fle_nan_left, fle_nan_right, fge_nan_left, fge_nan_right]

  refine ⟨part1, fun sp lp bars h2 hsl hln => ?_⟩
  apply part1 sp lp bars (lp - 1) (by omega)
  right; right; right
  unfold goldenCross_calculate
  dsimp only
  rw [rangeMap_getD _ _ (lp - 1 - 1) _ (by omega)]
  dsimp only
  apply rollingMean_getD_nan
  left
  omega

/-- Witness for `goldenCross_nan_no_event`: with windows 1 and 2 on a
two-bar series, the first bar where both moving averages are defined
(bar 1) fires no crossover event. -/
theorem goldenCross_nan_no_event_witness :
    ((goldenCross_calculate 1 2 [⟨0, 1, 1, 1, 1, 1⟩, ⟨1, 2, 2, 2, 2, 1⟩]).getD 1
      default).golden_cross = false ∧
    ((goldenCross_calculate 1 2 [⟨0, 1, 1, 1, 1, 1⟩, ⟨1, 2, 2, 2, 2, 1⟩]).getD 1
      default).death_cross = false :=
  goldenCross_nan_no_event.2 1 2 [⟨0, 1, 1, 1, 1, 1⟩, ⟨1, 2, 2, 2, 2, 1⟩]
    (by decide) (by decide) (by decide)

/-- Witness for `fetch_data_drops_forming_candle` on a concrete two-bar
fetch. -/
theorem fetch_data_drops_forming_candle_witness :
    fetch_data (.ok [⟨0, 1, 2, 0, 1, 5⟩, ⟨1, 1, 3, 0, 2, 5⟩]) ⟨none, false⟩ =
      (some [⟨0, 1, 2, 0, 1, 5⟩],
        { data := some [⟨0, 1, 2, 0, 1, 5⟩], in_position := false }) := by
  have h := (fetch_data_drops_forming_candle [⟨0, 1, 2, 0, 1, 5⟩, ⟨1, 1, 3, 0, 2, 5⟩]
    ⟨none, false⟩ (by decide)).1
  simpa using h
